import Mathlib

/-!
Shallow embedding of the PCRM2000 personal-CRM core (package version under
src/pcrm/, mirrored by the legacy src/pcrm.py): the name resolver
(find_contacts_by_name / choose_contact), the activity tracker
(_update_last_contacted and its callers add_note / log_interaction /
add_reminder), the tag operations, the suggestion query (suggest_contacts),
and schema creation (create_tables).

Modelling conventions:
* The SQLite store is a record of lists (one list per table); a SELECT with a
  WHERE clause is a List.filter, an UPDATE is a List.map, an INSERT is an
  append.  Row order of a plain SELECT is table (insertion) order.
* Timestamps (datetime.datetime values) are abstract Int instants; the single
  datetime.now() reading taken during one operation is passed in as a `now`
  parameter.
* SQL three-valued logic: a comparison of a NULL column with any value is not
  true, so the row is not selected; this is modelled by Option with the none
  case evaluating the predicate to false.
* Interactive input is an explicit list of the strings the user would type;
  a loop that would block forever waiting for further input is modelled by a
  distinguished blocked outcome.
* Strings are compared in the ASCII regime: Lean's Char.toLower coincides with
  SQLite's LOWER and with Python str.lower on ASCII data.
-/

/-- Error raised by Python code that the repository does not catch. -/
inductive PyErr where
  | indexError
deriving Repr, DecidableEq

deriving instance DecidableEq for Except

/-- One row of the contacts table (the columns the core logic reads).
last_name and last_contacted_at are nullable in the schema. -/
structure Contact where
  id : Nat
  first_name : String
  last_name : Option String
  last_contacted_at : Option Int
deriving Repr, DecidableEq

/-- One row of the notes table. -/
structure Note where
  contact_id : Nat
  note_text : String
  created_at : Int
deriving Repr, DecidableEq

/-- One row of the reminders table. -/
structure Reminder where
  contact_id : Nat
  message : String
  reminder_date : String
  created_at : Int
deriving Repr, DecidableEq

/-- One row of the tags table. -/
structure Tag where
  id : Nat
  name : String
deriving Repr, DecidableEq

/-- The database state: one list per table that the modelled operations touch,
plus the AUTOINCREMENT counter of the tags table. -/
structure DB where
  contacts : List Contact
  notes : List Note
  reminders : List Reminder
  tags : List Tag
  contact_tags : List (Nat × Nat)
  next_tag_id : Nat
deriving Repr, DecidableEq

/-- ASCII lowercasing of a string, the common semantics of SQLite LOWER and
Python str.lower on ASCII data. -/
def lowerStr (s : String) : String :=
  String.mk (s.data.map Char.toLower)

/-- Word accumulation for pyWords: cur holds the reversed characters of the
word currently being read. -/
def pyWordsAux (cur : List Char) : List Char → List (List Char)
  | [] => if cur = [] then [] else [cur.reverse]
  | c :: rest =>
    if c.isWhitespace then
      if cur = [] then pyWordsAux [] rest
      else cur.reverse :: pyWordsAux [] rest
    else pyWordsAux (c :: cur) rest

/-- Splitting a character list into maximal runs of non-whitespace characters,
the semantics of Python str.split() with no arguments. -/
def pyWords (cs : List Char) : List (List Char) :=
  pyWordsAux [] cs

/-- Tokenisation used by find_contacts_by_name: full_name.strip().split().
The leading strip is a no-op composition, since split() with no arguments
already discards leading and trailing whitespace. -/
def tokens (full_name : String) : List String :=
  (pyWords full_name.data).map String.mk

/-- SQL comparison LOWER(col) = term for a nullable column: a NULL column never
compares equal (three-valued logic). -/
def sqlLowerEq (col : Option String) (term : String) : Bool :=
  match col with
  | none => false
  | some s => lowerStr s = term

/-- Embedding of find_contacts_by_name (src/pcrm/contacts.py).  The source
branches on len(name_parts) == 1, and in the else branch evaluates
name_parts[0]; matching on the shape of the token list expresses the same
three cases: exactly one token (the then branch), zero tokens (the else
branch raising an uncaught IndexError at name_parts[0]), and two or more
tokens (the else branch's query). -/
def find_contacts_by_name (contacts : List Contact) (full_name : String) :
    Except PyErr (List Contact) :=
  match tokens full_name with
  | [term0] =>
    let term := lowerStr term0
    .ok (contacts.filter (fun c =>
      lowerStr c.first_name = term || sqlLowerEq c.last_name term))
  | [] => .error .indexError
  | p0 :: rest =>
    let fn := lowerStr p0
    let ln := lowerStr (String.intercalate " " rest)
    .ok (contacts.filter (fun c =>
      lowerStr c.first_name = fn && sqlLowerEq c.last_name ln))

/-- Matching policy as worded by the specification (section 4.1), used to
state the refinement claim about find_contacts_by_name: one token equals
(case-insensitively) either the given name or the family name; with two or
more tokens the first must equal the given name and the rest, joined by
single spaces, the family name. -/
def specNameMatch (toks : List String) (c : Contact) : Bool :=
  match toks with
  | [] => false
  | [t] =>
    lowerStr c.first_name = lowerStr t || sqlLowerEq c.last_name (lowerStr t)
  | t0 :: ts =>
    lowerStr c.first_name = lowerStr t0 &&
      sqlLowerEq c.last_name (lowerStr (String.intercalate " " ts))

/-- Digit accumulation for the Python int() literal grammar, after the first
digit has been consumed: further digits, with single underscores allowed only
between digits. -/
def pyIntDigitsAux : List Char → Nat → Option Nat
  | [], acc => some acc
  | '_' :: c :: rest, acc =>
    if c.isDigit then pyIntDigitsAux rest (acc * 10 + (c.toNat - '0'.toNat))
    else none
  | ['_'], _ => none
  | c :: rest, acc =>
    if c.isDigit then pyIntDigitsAux rest (acc * 10 + (c.toNat - '0'.toNat))
    else none

/-- A nonempty digit run per the Python int() grammar. -/
def pyIntDigits : List Char → Option Nat
  | [] => none
  | c :: rest =>
    if c.isDigit then pyIntDigitsAux rest (c.toNat - '0'.toNat)
    else none

/-- Embedding of Python int(str): strip surrounding whitespace, optional sign,
nonempty digits with single underscores between digits; none models the
ValueError path. -/
def pyParseInt (s : String) : Option Int :=
  let cs :=
    ((s.data.dropWhile Char.isWhitespace).reverse.dropWhile
      Char.isWhitespace).reverse
  match cs with
  | '+' :: ds => (pyIntDigits ds).map Int.ofNat
  | '-' :: ds => (pyIntDigits ds).map (fun n => -(Int.ofNat n))
  | ds => (pyIntDigits ds).map Int.ofNat

/-- Outcome of the contact resolution chokepoint choose_contact.  Python
returns a contact id, or None both when nothing matched and when the user
cancelled; blocked models the disambiguation loop waiting forever on an
exhausted input stream, and pyError the uncaught IndexError of
find_contacts_by_name on a tokenless name. -/
inductive CCResult where
  | chosen : Nat → CCResult
  | aborted : CCResult
  | blocked : CCResult
  | pyError : CCResult
deriving Repr, DecidableEq

/-- Embedding of the disambiguation loop of choose_contact
(src/pcrm/contacts.py): each iteration consumes one input line; q or Q
cancels, a parsed integer k with 1 <= k <= len selects candidate k, anything
else re-prompts.  The outer none means the input stream ran dry while the
loop was still prompting. -/
def choose_loop (contacts : List Contact) : List String → Option (Option Nat)
  | [] => none
  | choice :: rest =>
    if lowerStr choice = "q" then some none
    else
      match pyParseInt choice with
      | none => choose_loop contacts rest
      | some n =>
        let choice_index := n - 1
        if h : 0 ≤ choice_index ∧ choice_index < (contacts.length : Int) then
          some (some ((contacts.get ⟨choice_index.toNat, by omega⟩).id))
        else choose_loop contacts rest

/-- Embedding of choose_contact (src/pcrm/contacts.py): zero matches abort,
one match is returned directly without consuming input, several matches enter
the disambiguation loop. -/
def choose_contact (contacts : List Contact) (full_name : String)
    (inputs : List String) : CCResult :=
  match find_contacts_by_name contacts full_name with
  | .error _ => .pyError
  | .ok cs =>
    match cs with
    | [] => .aborted
    | [c] => .chosen c.id
    | _ =>
      match choose_loop cs inputs with
      | none => .blocked
      | some none => .aborted
      | some (some cid) => .chosen cid

/-- Embedding of _update_last_contacted (src/pcrm/contacts.py): UPDATE
contacts SET last_contacted_at = now WHERE id = contact_id.  A missing id is
a silent no-op, as in SQL. -/
def update_last_contacted (db : DB) (contact_id : Nat) (now : Int) : DB :=
  { db with
    contacts := db.contacts.map (fun c =>
      if c.id = contact_id then { c with last_contacted_at := some now }
      else c) }

/-- Result of running one user-facing operation: the new database state, or
the operation left waiting on an exhausted input stream, or it died with an
uncaught Python error. -/
inductive OpResult where
  | done : DB → OpResult
  | blocked : OpResult
  | pyError : OpResult
deriving Repr, DecidableEq

/-- Embedding of add_note (src/pcrm/interactions.py): resolve the name, abort
silently when resolution yields None, otherwise INSERT the note and stamp
last_contacted_at. -/
def add_note (db : DB) (full_name : String) (inputs : List String)
    (message : String) (now : Int) : OpResult :=
  match choose_contact db.contacts full_name inputs with
  | .pyError => .pyError
  | .blocked => .blocked
  | .aborted => .done db
  | .chosen contact_id =>
    let db1 := { db with notes := db.notes ++ [⟨contact_id, message, now⟩] }
    .done (update_last_contacted db1 contact_id now)

/-- Embedding of log_interaction (src/pcrm/interactions.py): identical to
add_note except that the stored text is prefixed. -/
def log_interaction (db : DB) (full_name : String) (inputs : List String)
    (message : String) (now : Int) : OpResult :=
  match choose_contact db.contacts full_name inputs with
  | .pyError => .pyError
  | .blocked => .blocked
  | .aborted => .done db
  | .chosen contact_id =>
    let db1 := { db with
      notes := db.notes ++ [⟨contact_id, "Logged interaction: " ++ message, now⟩] }
    .done (update_last_contacted db1 contact_id now)

/-- Decimal value of a digit-only character list, used by the strptime
embedding. -/
def decDigits (cs : List Char) : Nat :=
  cs.foldl (fun acc c => acc * 10 + (c.toNat - '0'.toNat)) 0

/-- Gregorian leap-year rule, as implemented by Python datetime. -/
def isLeap (y : Nat) : Bool :=
  (y % 4 = 0 && y % 100 != 0) || y % 400 = 0

/-- Number of days in a month, as validated by Python datetime. -/
def daysInMonth (y m : Nat) : Nat :=
  if m = 2 then (if isLeap y then 29 else 28)
  else if m = 4 || m = 6 || m = 9 || m = 11 then 30
  else 31

/-- Splitting a character list at dash characters, the semantics of
str.split with a single-character separator: fields may be empty and there
is always at least one field. -/
def splitDashAux (cur : List Char) : List Char → List (List Char)
  | [] => [cur.reverse]
  | c :: rest =>
    if c = '-' then cur.reverse :: splitDashAux [] rest
    else splitDashAux (c :: cur) rest

/-- The strptime day field: the CPython pattern for the day directive accepts
one or two digits, or a space followed by a single nonzero digit; the result
is the digit characters of the day, none when the field fits neither form. -/
def dayFieldDigits : List Char → Option (List Char)
  | [' ', c] => if c.isDigit && c ≠ '0' then some [c] else none
  | ds =>
    if ds ≠ [] && ds.all Char.isDigit && ds.length ≤ 2 then some ds else none

/-- Embedding of datetime.datetime.strptime(date_str, yyyy-mm-dd format),
following the CPython field patterns: exactly three dash-separated fields,
the year exactly four digits, the month one or two digits valued 1..12, the
day per dayFieldDigits; then datetime range validation (year at least 1, day
within the month, Gregorian leap years).  none models the ValueError path. -/
def strptime_ymd (date_str : String) : Option (Nat × Nat × Nat) :=
  match splitDashAux [] date_str.data with
  | [ys, ms, ds] =>
    match dayFieldDigits ds with
    | none => none
    | some dds =>
      if ys.all Char.isDigit && ys.length = 4 &&
         ms ≠ [] && ms.all Char.isDigit && ms.length ≤ 2 then
        let y := decDigits ys
        let m := decDigits ms
        let d := decDigits dds
        if 1 ≤ y && 1 ≤ m && m ≤ 12 && 1 ≤ d && d ≤ daysInMonth y m then
          some (y, m, d)
        else none
      else none
  | _ => none

/-- Embedding of add_reminder (src/pcrm/interactions.py): resolve the name,
validate the date with strptime (ValueError aborts before any write),
otherwise INSERT the reminder and stamp last_contacted_at.  The optional
Google Calendar step performs no database write and is omitted. -/
def add_reminder (db : DB) (full_name : String) (inputs : List String)
    (message date_str : String) (now : Int) : OpResult :=
  match choose_contact db.contacts full_name inputs with
  | .pyError => .pyError
  | .blocked => .blocked
  | .aborted => .done db
  | .chosen contact_id =>
    match strptime_ymd date_str with
    | none => .done db
    | some _ =>
      let db1 := { db with
        reminders := db.reminders ++ [⟨contact_id, message, date_str, now⟩] }
      .done (update_last_contacted db1 contact_id now)

/-- Embedding of add_tag_to_contact (src/pcrm/tags.py): resolve the name,
find or create the tag row, INSERT into contact_tags.  A duplicate
(contact_id, tag_id) raises IntegrityError, the handler swallows it and the
scoped connection closes without commit, rolling back the whole transaction
(including a tag row created in it), so the original state is kept. -/
def add_tag_to_contact (db : DB) (full_name : String) (inputs : List String)
    (tag_name : String) : OpResult :=
  match choose_contact db.contacts full_name inputs with
  | .pyError => .pyError
  | .blocked => .blocked
  | .aborted => .done db
  | .chosen contact_id =>
    let found := db.tags.find? (fun t => t.name = tag_name)
    let tag_id := match found with
      | some t => t.id
      | none => db.next_tag_id
    let db1 := match found with
      | some _ => db
      | none =>
        { db with
          tags := db.tags ++ [Tag.mk db.next_tag_id tag_name],
          next_tag_id := db.next_tag_id + 1 }
    if (contact_id, tag_id) ∈ db1.contact_tags then .done db
    else .done { db1 with contact_tags := db1.contact_tags ++ [(contact_id, tag_id)] }

/-- Embedding of remove_tag_from_contact (src/pcrm/tags.py): resolve the
name; a missing tag aborts, otherwise DELETE the matching contact_tags row. -/
def remove_tag_from_contact (db : DB) (full_name : String)
    (inputs : List String) (tag_name : String) : OpResult :=
  match choose_contact db.contacts full_name inputs with
  | .pyError => .pyError
  | .blocked => .blocked
  | .aborted => .done db
  | .chosen contact_id =>
    match db.tags.find? (fun t => t.name = tag_name) with
    | none => .done db
    | some t =>
      .done { db with
        contact_tags := db.contact_tags.filter (fun p =>
          !(p.1 = contact_id && p.2 = t.id)) }

/-- Embedding of the state effect of view_contact (src/pcrm/contacts.py): it
resolves the name and then issues SELECT statements only, so on every
completed path the database is unchanged. -/
def view_contact (db : DB) (full_name : String) (inputs : List String) :
    OpResult :=
  match choose_contact db.contacts full_name inputs with
  | .pyError => .pyError
  | .blocked => .blocked
  | .aborted => .done db
  | .chosen _ => .done db

/-- SQL ascending order on a nullable text column: NULL sorts before every
string. -/
def sqlStrLe (a b : Option String) : Bool :=
  match a, b with
  | none, _ => true
  | some _, none => false
  | some x, some y => x ≤ y

/-- Embedding of the rows displayed by list_contacts (src/pcrm/contacts.py)
without a tag filter: SELECT ... ORDER BY first_name, last_name.  The
operation issues no writes. -/
def list_contacts_rows (db : DB) : List Contact :=
  db.contacts.mergeSort (fun a b =>
    a.first_name < b.first_name ||
      (a.first_name = b.first_name && sqlStrLe a.last_name b.last_name))

/-- The user-facing operations modelled in this development, with their
arguments.  The first five resolve a contact name; the last two are the
read-only displays. -/
inductive Op where
  | opAddNote (name message : String)
  | opLogInteraction (name message : String)
  | opAddReminder (name message date_str : String)
  | opAddTag (name tag : String)
  | opRemoveTag (name tag : String)
  | opViewContact (name : String)
  | opListContacts
deriving Repr, DecidableEq

/-- Dispatch of one user action to its embedded operation. list_contacts
executes SELECT statements only, so its state effect is the identity. -/
def applyOp (db : DB) (op : Op) (inputs : List String) (now : Int) :
    OpResult :=
  match op with
  | .opAddNote name message => add_note db name inputs message now
  | .opLogInteraction name message => log_interaction db name inputs message now
  | .opAddReminder name message date_str =>
    add_reminder db name inputs message date_str now
  | .opAddTag name tag => add_tag_to_contact db name inputs tag
  | .opRemoveTag name tag => remove_tag_from_contact db name inputs tag
  | .opViewContact name => view_contact db name inputs
  | .opListContacts => .done db

/-- SQL ascending order on the nullable last_contacted_at column: NULL sorts
before every instant. -/
def sqlTsLe (a b : Option Int) : Bool :=
  match a, b with
  | none, _ => true
  | some _, none => false
  | some x, some y => x ≤ y

/-- Embedding of suggest_contacts (src/pcrm/ui.py): threshold_date is now
minus the day span; SELECT ... WHERE last_contacted_at < threshold ORDER BY
last_contacted_at ASC.  Under SQL three-valued logic a NULL
last_contacted_at never satisfies the strict comparison, so never-contacted
rows are not selected. -/
def suggest_contacts (contacts : List Contact) (now : Int) (days : Int) :
    List Contact :=
  let threshold_date := now - days
  ((contacts.filter (fun c =>
      match c.last_contacted_at with
      | none => false
      | some t => t < threshold_date))).mergeSort
    (fun a b => sqlTsLe a.last_contacted_at b.last_contacted_at)

/-- The tables that create_tables (src/pcrm/database.py) attempts to create,
in statement order. -/
inductive TableName where
  | contacts
  | phones
  | pets
  | partners
  | notes
  | reminders
  | tags
  | contact_tags
  | special_occasions
  | gifts
deriving Repr, DecidableEq

/-- Executing one CREATE TABLE IF NOT EXISTS statement on a connection.  DDL
runs in autocommit mode in the sqlite3 module, so a successful statement
persists immediately; a statement on a closed connection raises
ProgrammingError. -/
def execCreate (connOpen : Bool) (schema : List TableName) (t : TableName) :
    Except String (List TableName) :=
  if connOpen then
    .ok (if t ∈ schema then schema else schema ++ [t])
  else .error "Cannot operate on a closed database."

/-- Executing a sequence of CREATE TABLE statements, stopping at the first
error. -/
def execCreateSeq (connOpen : Bool) (schema : List TableName) :
    List TableName → List TableName × Except String Unit
  | [] => (schema, .ok ())
  | t :: ts =>
    match execCreate connOpen schema t with
    | .error e => (schema, .error e)
    | .ok s1 => execCreateSeq connOpen s1 ts

/-- Committing on a connection; on a closed connection this raises
ProgrammingError. -/
def commitConn (connOpen : Bool) : Except String Unit :=
  if connOpen then .ok () else .error "Cannot operate on a closed database."

/-- Embedding of create_tables in the package version (src/pcrm/database.py).
The scoped-connection block encloses only the first CREATE TABLE (contacts):
the context manager closes the connection right after it, and the nine
remaining CREATE TABLE statements and the final commit execute on the closed
connection.  The result pairs the persisted schema with the outcome. -/
def create_tables (schema : List TableName) :
    List TableName × Except String Unit :=
  match execCreate true schema .contacts with
  | .error e => (schema, .error e)
  | .ok s1 =>
    match execCreateSeq false s1
        [.phones, .pets, .partners, .notes, .reminders, .tags,
         .contact_tags, .special_occasions, .gifts] with
    | (s2, .error e) => (s2, .error e)
    | (s2, .ok ()) =>
      match commitConn false with
      | .error e => (s2, .error e)
      | .ok () => (s2, .ok ())

/-- The last_contacted_at value of the first contacts row with the given id,
or none when no row has it (SQL lookup by identifier). -/
def lastContactedOf (db : DB) (contact_id : Nat) : Option (Option Int) :=
  (db.contacts.find? (fun c => c.id = contact_id)).map
    (fun c => c.last_contacted_at)

/-- Growth order on a looked-up last_contacted_at: an absent row stays
absent, a NULL value may become anything, a set value may only increase.
This is the once-set-monotonically-non-decreasing relation of the spec. -/
def lcGrows (a b : Option (Option Int)) : Prop :=
  match a, b with
  | none, none => True
  | some none, some _ => True
  | some (some t), some (some u) => t ≤ u
  | _, _ => False

theorem pyWordsAux_eq_nil_iff (cs : List Char) :
    ∀ cur, (pyWordsAux cur cs = [] ↔ cur = [] ∧ ∀ c ∈ cs, c.isWhitespace) := by
  induction cs with
  | nil => intro cur; by_cases h : cur = [] <;> simp [pyWordsAux, h]
  | cons c rest ih =>
    intro cur
    by_cases h : c.isWhitespace
    · by_cases hcur : cur = []
      · have e1 : pyWordsAux cur (c :: rest) = pyWordsAux [] rest := by
          simp [pyWordsAux, h, hcur]
        rw [e1, ih]
        constructor
        · rintro ⟨-, hall⟩
          refine ⟨hcur, ?_⟩
          intro x hx
          rcases List.mem_cons.mp hx with he | hm
          · subst he; exact h
          · exact hall x hm
        · rintro ⟨-, hall⟩
          exact ⟨rfl, fun x hx => hall x (List.mem_cons_of_mem _ hx)⟩
      · have e1 : pyWordsAux cur (c :: rest) = cur.reverse :: pyWordsAux [] rest := by
          simp [pyWordsAux, h, hcur]
        rw [e1]
        simp [hcur]
    · have e1 : pyWordsAux cur (c :: rest) = pyWordsAux (c :: cur) rest := by
        simp [pyWordsAux, h]
      rw [e1, ih]
      constructor
      · rintro ⟨habs, -⟩; exact absurd habs (List.cons_ne_nil _ _)
      · rintro ⟨-, hall⟩
        exact absurd (hall c (List.mem_cons_self c rest)) (by simpa using h)

theorem pyWords_eq_nil_iff (cs : List Char) :
    pyWords cs = [] ↔ ∀ c ∈ cs, c.isWhitespace := by
  rw [pyWords, pyWordsAux_eq_nil_iff]
  simp

theorem tokens_eq_nil_iff (s : String) :
    tokens s = [] ↔ ∀ c ∈ s.data, c.isWhitespace := by
  rw [tokens, List.map_eq_nil_iff, pyWords_eq_nil_iff]

theorem find_eq_filter (contacts : List Contact) (full_name : String)
    (h : tokens full_name ≠ []) :
    find_contacts_by_name contacts full_name =
      .ok (contacts.filter (specNameMatch (tokens full_name))) := by
  cases htk : tokens full_name with
  | nil => exact absurd htk h
  | cons p0 rest =>
    cases rest with
    | nil =>
      simp only [find_contacts_by_name, htk]
      exact congrArg Except.ok
        (List.filter_congr fun c _ => by simp [specNameMatch])
    | cons p1 ts =>
      simp only [find_contacts_by_name, htk]
      exact congrArg Except.ok
        (List.filter_congr fun c _ => by simp [specNameMatch])

/-- C5: with contacts Jane Doe (added first, id 1) then Jane Smith (id 2),
resolving the single token Jane lists both as candidates in that order —
candidate 1 is Doe, candidate 2 is Smith, which here coincides with
alphabetical order of family names — and entering 1 in the disambiguation
loop returns the identifier of the Doe contact. -/
theorem c5_jane_doe_smith_scenario :
    find_contacts_by_name
        [⟨1, "Jane", some "Doe", none⟩, ⟨2, "Jane", some "Smith", none⟩]
        "Jane" =
      .ok [⟨1, "Jane", some "Doe", none⟩, ⟨2, "Jane", some "Smith", none⟩] ∧
    choose_contact
        [⟨1, "Jane", some "Doe", none⟩, ⟨2, "Jane", some "Smith", none⟩]
        "Jane" ["1"] = .chosen 1 := by
  decide

/-- C7: when the name resolves to exactly one contact, choose_contact returns
that contact's identifier for every input stream, in particular for the empty
one — so no interactive prompt is consulted. -/
theorem c7_single_match_direct (contacts : List Contact) (full_name : String)
    (c : Contact)
    (hfind : find_contacts_by_name contacts full_name = .ok [c]) :
    ∀ inputs : List String,
      choose_contact contacts full_name inputs = .chosen c.id := by
  intro inputs
  simp [choose_contact, hfind]

theorem c7_witness :
    choose_contact [⟨5, "Sam", some "Lee", none⟩] "Sam Lee" [] = .chosen 5 :=
  c7_single_match_direct [⟨5, "Sam", some "Lee", none⟩] "Sam Lee"
    ⟨5, "Sam", some "Lee", none⟩ (by decide) []

/-- C6: when the name matches zero contacts, choose_contact yields the
Python None signal (aborted) and every name-resolving operation returns the
database unchanged: no partial writes occur. -/
theorem c6_not_found_aborts (db : DB) (full_name : String)
    (inputs : List String) (message date_str tag_name : String) (now : Int)
    (hfind : find_contacts_by_name db.contacts full_name = .ok []) :
    choose_contact db.contacts full_name inputs = .aborted ∧
    add_note db full_name inputs message now = .done db ∧
    log_interaction db full_name inputs message now = .done db ∧
    add_reminder db full_name inputs message date_str now = .done db ∧
    add_tag_to_contact db full_name inputs tag_name = .done db ∧
    remove_tag_from_contact db full_name inputs tag_name = .done db ∧
    view_contact db full_name inputs = .done db := by
  have hcc : choose_contact db.contacts full_name inputs = .aborted := by
    simp [choose_contact, hfind]
  exact ⟨hcc,
    by simp [add_note, hcc],
    by simp [log_interaction, hcc],
    by simp [add_reminder, hcc],
    by simp [add_tag_to_contact, hcc],
    by simp [remove_tag_from_contact, hcc],
    by simp [view_contact, hcc]⟩

theorem c6_witness :
    choose_contact (DB.mk [] [] [] [] [] 1).contacts "Bob" [] = .aborted ∧
    add_note (DB.mk [] [] [] [] [] 1) "Bob" [] "hi" 0 =
      .done (DB.mk [] [] [] [] [] 1) ∧
    log_interaction (DB.mk [] [] [] [] [] 1) "Bob" [] "hi" 0 =
      .done (DB.mk [] [] [] [] [] 1) ∧
    add_reminder (DB.mk [] [] [] [] [] 1) "Bob" [] "hi" "2024-01-02" 0 =
      .done (DB.mk [] [] [] [] [] 1) ∧
    add_tag_to_contact (DB.mk [] [] [] [] [] 1) "Bob" [] "friend" =
      .done (DB.mk [] [] [] [] [] 1) ∧
    remove_tag_from_contact (DB.mk [] [] [] [] [] 1) "Bob" [] "friend" =
      .done (DB.mk [] [] [] [] [] 1) ∧
    view_contact (DB.mk [] [] [] [] [] 1) "Bob" [] =
      .done (DB.mk [] [] [] [] [] 1) :=
  c6_not_found_aborts (DB.mk [] [] [] [] [] 1) "Bob" [] "hi" "2024-01-02"
    "friend" 0 (by decide)

/-- C9: in the package version every invocation of create_tables raises the
closed-connection ProgrammingError, because the scoped connection closes
after the first CREATE TABLE; the persisted schema gains at most the
contacts table (nothing when it already exists). -/
theorem c9_create_tables_closed_connection (schema : List TableName) :
    (create_tables schema).2 = .error "Cannot operate on a closed database." ∧
    (create_tables schema).1 =
      (if TableName.contacts ∈ schema then schema
       else schema ++ [TableName.contacts]) := by
  simp [create_tables, execCreate, execCreateSeq]

/-- C3: for a name with at least one token, find_contacts_by_name returns
exactly the filter of the contact table by the specification's matching
policy (specNameMatch) — equality case-insensitive, never substring — in
table order; membership is characterised by the policy. -/
theorem c3_find_contacts_matching_policy (contacts : List Contact)
    (full_name : String) (h : tokens full_name ≠ []) :
    find_contacts_by_name contacts full_name =
      .ok (contacts.filter (specNameMatch (tokens full_name))) ∧
    ∀ c, c ∈ contacts.filter (specNameMatch (tokens full_name)) ↔
      c ∈ contacts ∧ specNameMatch (tokens full_name) c = true :=
  ⟨find_eq_filter contacts full_name h, fun _ => List.mem_filter⟩

theorem c3_witness :
    find_contacts_by_name
      [⟨1, "Jane", some "Doe", none⟩, ⟨2, "Janet", some "Doe", none⟩]
      "jane doe" = .ok [⟨1, "Jane", some "Doe", none⟩] := by
  have h := (c3_find_contacts_matching_policy
    [⟨1, "Jane", some "Doe", none⟩, ⟨2, "Janet", some "Doe", none⟩]
    "jane doe" (by decide)).1
  rw [h]; decide

/-- C10: find_contacts_by_name is total exactly when the input holds a
non-whitespace character: an all-whitespace input tokenises to zero parts and
the else branch raises IndexError at name_parts[0], while any input with a
non-whitespace character reaches a query. -/
theorem c10_find_totality :
    (∀ (contacts : List Contact) (name : String),
      (∀ ch ∈ name.data, ch.isWhitespace) →
      find_contacts_by_name contacts name = .error .indexError) ∧
    (∀ (contacts : List Contact) (name : String),
      (∃ ch ∈ name.data, ¬ ch.isWhitespace) →
      ∃ l, find_contacts_by_name contacts name = .ok l) := by
  constructor
  · intro contacts name hw
    have htk : tokens name = [] := (tokens_eq_nil_iff name).mpr hw
    simp [find_contacts_by_name, htk]
  · intro contacts name hex
    have htk : tokens name ≠ [] := by
      rw [Ne, tokens_eq_nil_iff]
      intro hall
      obtain ⟨ch, hch, hnw⟩ := hex
      exact hnw (hall ch hch)
    exact ⟨_, find_eq_filter contacts name htk⟩

theorem c10_witness :
    find_contacts_by_name [] "  " = .error .indexError ∧
    ∃ l, find_contacts_by_name [] "a" = .ok l :=
  ⟨c10_find_totality.1 [] "  " (by decide),
   c10_find_totality.2 [] "a" ⟨'a', by decide⟩⟩

/-- C4: behaviour of one iteration of the disambiguation loop, for every
candidate list and every remaining input stream.  A parsed integer k with
1 <= k <= length returns the identifier of candidate k; an input lowercasing
to q cancels (Python None); a non-numeric input or an out-of-range number
leaves the loop exactly where it was (pure re-prompt, no state, unbounded
retries, and the result type has no failure constructor to surface). -/
theorem c4_disambiguation_loop (contacts : List Contact)
    (rest : List String) :
    (∀ (s : String) (k : Int) (c : Contact), lowerStr s ≠ "q" →
      pyParseInt s = some k → 1 ≤ k →
      contacts[(k - 1).toNat]? = some c →
      choose_loop contacts (s :: rest) = some (some c.id)) ∧
    (∀ s : String, lowerStr s = "q" →
      choose_loop contacts (s :: rest) = some none) ∧
    (∀ s : String, lowerStr s ≠ "q" → pyParseInt s = none →
      choose_loop contacts (s :: rest) = choose_loop contacts rest) ∧
    (∀ (s : String) (k : Int), lowerStr s ≠ "q" → pyParseInt s = some k →
      (k < 1 ∨ (contacts.length : Int) < k) →
      choose_loop contacts (s :: rest) = choose_loop contacts rest) := by
  refine ⟨?_, ?_, ?_, ?_⟩
  · intro s k c hq hparse h1 hget
    obtain ⟨hlt, helem⟩ := List.getElem?_eq_some_iff.mp hget
    rw [choose_loop, if_neg hq, hparse]
    simp only
    rw [dif_pos ⟨by omega, by omega⟩]
    congr 1
    rw [← helem]
    rfl
  · intro s hq
    rw [choose_loop, if_pos hq]
  · intro s hq hparse
    rw [choose_loop, if_neg hq, hparse]
  · intro s k hq hparse hout
    rw [choose_loop, if_neg hq, hparse]
    simp only
    rw [dif_neg (by omega)]

theorem c4_witness :
    choose_loop [⟨10, "A", none, none⟩, ⟨20, "B", none, none⟩,
        ⟨30, "C", none, none⟩] ["2"] = some (some 20) ∧
    choose_loop [⟨10, "A", none, none⟩, ⟨20, "B", none, none⟩,
        ⟨30, "C", none, none⟩] ["q"] = some none ∧
    choose_loop [⟨10, "A", none, none⟩, ⟨20, "B", none, none⟩,
        ⟨30, "C", none, none⟩] ["abc", "5", "2"] = some (some 20) := by
  refine ⟨?_, ?_, ?_⟩
  · exact (c4_disambiguation_loop _ []).1 "2" 2 ⟨20, "B", none, none⟩
      (by decide) (by decide) (by decide) (by decide)
  · exact (c4_disambiguation_loop _ []).2.1 "q" (by decide)
  · have h3 := (c4_disambiguation_loop
      [⟨10, "A", none, none⟩, ⟨20, "B", none, none⟩, ⟨30, "C", none, none⟩]
      ["5", "2"]).2.2.1 "abc" (by decide) (by decide)
    have h4 := (c4_disambiguation_loop
      [⟨10, "A", none, none⟩, ⟨20, "B", none, none⟩, ⟨30, "C", none, none⟩]
      ["2"]).2.2.2 "5" 5 (by decide) (by decide) (by decide)
    have h1 := (c4_disambiguation_loop
      [⟨10, "A", none, none⟩, ⟨20, "B", none, none⟩, ⟨30, "C", none, none⟩]
      []).1 "2" 2 ⟨20, "B", none, none⟩ (by decide) (by decide) (by decide)
      (by decide)
    exact h3.trans (h4.trans h1)

/-- C1 counterexample: a contact whose last_contacted_at is NULL is a contact
the claim requires suggest_contacts to return (null or strictly older than
the threshold), yet the query's strict comparison against the threshold is
not true for NULL, so suggest_contacts returns the empty list on a table
holding only that contact. -/
theorem c1_null_excluded_counterexample :
    (⟨1, "Ann", none, none⟩ : Contact) ∈ [(⟨1, "Ann", none, none⟩ : Contact)] ∧
    (⟨1, "Ann", none, none⟩ : Contact).last_contacted_at = none ∧
    suggest_contacts [⟨1, "Ann", none, none⟩] 1000 30 = [] := by
  refine ⟨by decide, rfl, ?_⟩
  simp [suggest_contacts]

/-- C1 (amended): suggest_contacts returns exactly the contacts whose
last_contacted_at is non-null and strictly older than now minus the day
threshold — never-contacted contacts (NULL) are excluded — ordered
oldest-first. -/
theorem c1_suggest_contacts_amended (contacts : List Contact)
    (now days : Int) :
    (∀ c, c ∈ suggest_contacts contacts now days ↔
      c ∈ contacts ∧ ∃ t, c.last_contacted_at = some t ∧ t < now - days) ∧
    List.Pairwise
      (fun a b => sqlTsLe a.last_contacted_at b.last_contacted_at = true)
      (suggest_contacts contacts now days) := by
  constructor
  · intro c
    rw [suggest_contacts]
    simp only [List.mem_mergeSort, List.mem_filter]
    constructor
    · rintro ⟨hm, hp⟩
      refine ⟨hm, ?_⟩
      cases hl : c.last_contacted_at with
      | none => rw [hl] at hp; cases hp
      | some t => rw [hl] at hp; exact ⟨t, rfl, by simpa using hp⟩
    · rintro ⟨hm, t, hl, ht⟩
      refine ⟨hm, ?_⟩
      rw [hl]
      simpa using ht
  · apply List.sorted_mergeSort
    · intro a b c
      rcases a.last_contacted_at with _ | x <;>
        rcases b.last_contacted_at with _ | y <;>
        rcases c.last_contacted_at with _ | z
      all_goals simp [sqlTsLe]
      all_goals omega
    · intro a b
      rcases a.last_contacted_at with _ | x <;>
        rcases b.last_contacted_at with _ | y
      all_goals simp [sqlTsLe]
      all_goals omega

theorem find?_contacts_update (l : List Contact) (cid : Nat) (now : Int)
    (cid2 : Nat) :
    (l.map (fun c =>
        if c.id = cid then { c with last_contacted_at := some now }
        else c)).find? (fun c => c.id = cid2) =
      (l.find? (fun c => c.id = cid2)).map (fun c =>
        if c.id = cid then { c with last_contacted_at := some now } else c) := by
  rw [List.find?_map]
  have hpf : ((fun (c : Contact) => decide (c.id = cid2)) ∘ fun (c : Contact) =>
      if c.id = cid then { c with last_contacted_at := some now } else c) =
      (fun (c : Contact) => decide (c.id = cid2)) := by
    funext c
    simp only [Function.comp_apply]
    by_cases hc : c.id = cid <;> simp [hc]
  rw [hpf]

theorem lcGrows_refl (a : Option (Option Int)) : lcGrows a a := by
  rcases a with _ | b
  · simp [lcGrows]
  · rcases b with _ | t <;> simp [lcGrows]

theorem lcGrows_map_update (db db2 : DB) (cid : Nat) (now : Int) (cid2 : Nat)
    (heq : db2.contacts = db.contacts.map (fun c =>
      if c.id = cid then { c with last_contacted_at := some now } else c))
    (hclock : ∀ c ∈ db.contacts, sqlTsLe c.last_contacted_at (some now) = true) :
    lcGrows (lastContactedOf db cid2) (lastContactedOf db2 cid2) := by
  unfold lastContactedOf
  rw [heq, find?_contacts_update]
  rcases hf : db.contacts.find? (fun c => c.id = cid2) with _ | c0 <;> rw [hf]
  · simp [lcGrows]
  · have hmem : c0 ∈ db.contacts := List.mem_of_find?_eq_some hf
    have hcl := hclock c0 hmem
    simp only [Option.map_some', Function.comp_apply]
    by_cases hc0 : c0.id = cid
    · rw [if_pos hc0]
      rcases hl : c0.last_contacted_at with _ | t
      · simp [lcGrows, hl]
      · rw [hl] at hcl
        simp only [sqlTsLe] at hcl
        simp only [lcGrows, hl]
        simpa using hcl
    · rw [if_neg hc0]
      exact lcGrows_refl _

theorem lastContactedOf_update_self (db1 : DB) (cid : Nat) (now : Int)
    (hex : ∃ c ∈ db1.contacts, c.id = cid) :
    lastContactedOf (update_last_contacted db1 cid now) cid =
      some (some now) := by
  unfold lastContactedOf update_last_contacted
  simp only
  rw [find?_contacts_update]
  rcases hf : db1.contacts.find? (fun c => c.id = cid) with _ | c0 <;> rw [hf]
  · obtain ⟨c, hm, hc⟩ := hex
    have hnone := List.find?_eq_none.mp hf c hm
    simp [hc] at hnone
  · have hp : c0.id = cid := by simpa using List.find?_some hf
    simp [hp]

theorem choose_loop_mem (cs : List Contact) :
    ∀ (inputs : List String) (cid : Nat),
      choose_loop cs inputs = some (some cid) → ∃ c ∈ cs, c.id = cid := by
  intro inputs
  induction inputs with
  | nil => intro cid h; simp [choose_loop] at h
  | cons s rest ih =>
    intro cid h
    rw [choose_loop] at h
    by_cases hq : lowerStr s = "q"
    · rw [if_pos hq] at h; simp at h
    · rw [if_neg hq] at h
      rcases hp : pyParseInt s with _ | n
      · rw [hp] at h; exact ih cid h
      · rw [hp] at h
        simp only at h
        split at h
        · injection h with h1
          injection h1 with h2
          exact ⟨_, List.get_mem _ _ _, h2⟩
        · exact ih cid h

theorem find_ok_subset (contacts : List Contact) (full_name : String)
    (l : List Contact) (h : find_contacts_by_name contacts full_name = .ok l) :
    ∀ c ∈ l, c ∈ contacts := by
  intro c hc
  unfold find_contacts_by_name at h
  rcases htk : tokens full_name with _ | ⟨p0, rest⟩
  · rw [htk] at h; cases h
  · rcases rest with _ | ⟨p1, ts⟩ <;> rw [htk] at h <;> injection h with h1 <;>
      subst h1 <;> exact (List.mem_filter.mp hc).1

theorem choose_contact_multi (contacts : List Contact) (full_name : String)
    (inputs : List String) (c0 c1 : Contact) (cs2 : List Contact)
    (hf : find_contacts_by_name contacts full_name = .ok (c0 :: c1 :: cs2)) :
    choose_contact contacts full_name inputs =
      match choose_loop (c0 :: c1 :: cs2) inputs with
      | none => .blocked
      | some none => .aborted
      | some (some cid) => .chosen cid := by
  unfold choose_contact
  rw [hf]

theorem choose_chosen_mem (contacts : List Contact) (full_name : String)
    (inputs : List String) (cid : Nat)
    (h : choose_contact contacts full_name inputs = .chosen cid) :
    ∃ c ∈ contacts, c.id = cid := by
  rcases hf : find_contacts_by_name contacts full_name with e | cs
  · unfold choose_contact at h
    rw [hf] at h; cases h
  · have hsub := find_ok_subset contacts full_name cs hf
    rcases cs with _ | ⟨c0, cs1⟩
    · unfold choose_contact at h
      rw [hf] at h; cases h
    · rcases cs1 with _ | ⟨c1, cs2⟩
      · unfold choose_contact at h
        rw [hf] at h
        injection h with h1
        exact ⟨c0, hsub c0 (by simp), h1⟩
      · rw [choose_contact_multi contacts full_name inputs c0 c1 cs2 hf] at h
        rcases hl : choose_loop (c0 :: c1 :: cs2) inputs with _ | r
        · rw [hl] at h; cases h
        · rcases r with _ | cid2
          · rw [hl] at h; cases h
          · rw [hl] at h
            injection h with h1
            subst h1
            obtain ⟨c, hm, hcid⟩ := choose_loop_mem _ inputs cid2 hl
            exact ⟨c, hsub c hm, hcid⟩

/-- C8: the read-only operations (list, view) and the tag operations (tag,
untag) leave the contacts table — in particular every contact's
last_contacted_at — unchanged on every completed run: none of them invokes
the mark-contacted update. -/
theorem c8_readonly_and_tag_frame (db : DB) (inputs : List String)
    (now : Int) :
    (∀ db2, applyOp db .opListContacts inputs now = .done db2 →
      db2.contacts = db.contacts) ∧
    (∀ name db2, applyOp db (.opViewContact name) inputs now = .done db2 →
      db2.contacts = db.contacts) ∧
    (∀ name tag db2, applyOp db (.opAddTag name tag) inputs now = .done db2 →
      db2.contacts = db.contacts) ∧
    (∀ name tag db2, applyOp db (.opRemoveTag name tag) inputs now = .done db2 →
      db2.contacts = db.contacts) := by
  refine ⟨?_, ?_, ?_, ?_⟩
  · intro db2 h
    simp only [applyOp] at h
    cases h; rfl
  · intro name db2 h
    simp only [applyOp, view_contact] at h
    rcases hcc : choose_contact db.contacts name inputs with cid | _ | _ | _ <;>
      rw [hcc] at h <;> cases h <;> rfl
  · intro name tag db2 h
    simp only [applyOp, add_tag_to_contact] at h
    rcases hcc : choose_contact db.contacts name inputs with cid | _ | _ | _ <;>
      rw [hcc] at h
    · rcases hf : db.tags.find? (fun t => t.name = tag) with _ | t0 <;>
        simp only [hf] at h <;> split at h <;> cases h <;> rfl
    · cases h; rfl
    · cases h
    · cases h
  · intro name tag db2 h
    simp only [applyOp, remove_tag_from_contact] at h
    rcases hcc : choose_contact db.contacts name inputs with cid | _ | _ | _ <;>
      rw [hcc] at h
    · rcases hf : db.tags.find? (fun t => t.name = tag) with _ | t0 <;>
        rw [hf] at h <;> cases h <;> rfl
    · cases h; rfl
    · cases h
    · cases h

theorem c8_witness :
    (DB.mk [⟨1, "A", none, none⟩] [] [] [] [] 1).contacts =
      (DB.mk [⟨1, "A", none, none⟩] [] [] [] [] 1).contacts ∧
    (DB.mk [⟨1, "A", none, none⟩] [] [] [] [] 1).contacts =
      (DB.mk [⟨1, "A", none, none⟩] [] [] [] [] 1).contacts ∧
    (DB.mk [⟨1, "A", none, none⟩] [] [] [Tag.mk 1 "x"] [(1, 1)] 2).contacts =
      (DB.mk [⟨1, "A", none, none⟩] [] [] [] [] 1).contacts ∧
    (DB.mk [⟨1, "A", none, none⟩] [] [] [] [] 1).contacts =
      (DB.mk [⟨1, "A", none, none⟩] [] [] [] [] 1).contacts :=
  ⟨(c8_readonly_and_tag_frame (DB.mk [⟨1, "A", none, none⟩] [] [] [] [] 1)
      [] 0).1 _ (by decide),
   (c8_readonly_and_tag_frame (DB.mk [⟨1, "A", none, none⟩] [] [] [] [] 1)
      [] 0).2.1 "A" _ (by decide),
   (c8_readonly_and_tag_frame (DB.mk [⟨1, "A", none, none⟩] [] [] [] [] 1)
      [] 0).2.2.1 "A" "x" _ (by decide),
   (c8_readonly_and_tag_frame (DB.mk [⟨1, "A", none, none⟩] [] [] [] [] 1)
      [] 0).2.2.2 "A" "x" _ (by decide)⟩

theorem applyOp_contacts_cases (db : DB) (op : Op) (inputs : List String)
    (now : Int) (db2 : DB) (h : applyOp db op inputs now = .done db2) :
    db2.contacts = db.contacts ∨
    ∃ cid, db2.contacts = db.contacts.map (fun c =>
      if c.id = cid then { c with last_contacted_at := some now } else c) := by
  cases op with
  | opAddNote name message =>
    simp only [applyOp, add_note] at h
    rcases hcc : choose_contact db.contacts name inputs with cid2 | _ | _ | _ <;>
      rw [hcc] at h <;> cases h
    · exact Or.inr ⟨cid2, rfl⟩
    · exact Or.inl rfl
  | opLogInteraction name message =>
    simp only [applyOp, log_interaction] at h
    rcases hcc : choose_contact db.contacts name inputs with cid2 | _ | _ | _ <;>
      rw [hcc] at h <;> cases h
    · exact Or.inr ⟨cid2, rfl⟩
    · exact Or.inl rfl
  | opAddReminder name message date_str =>
    simp only [applyOp, add_reminder] at h
    rcases hcc : choose_contact db.contacts name inputs with cid2 | _ | _ | _ <;>
      rw [hcc] at h
    · rcases hd : strptime_ymd date_str with _ | d <;> rw [hd] at h <;> cases h
      · exact Or.inl rfl
      · exact Or.inr ⟨cid2, rfl⟩
    · cases h; exact Or.inl rfl
    · cases h
    · cases h
  | opAddTag name tag =>
    simp only [applyOp, add_tag_to_contact] at h
    rcases hcc : choose_contact db.contacts name inputs with cid2 | _ | _ | _ <;>
      rw [hcc] at h
    · rcases hf : db.tags.find? (fun t => t.name = tag) with _ | t0 <;>
        simp only [hf] at h <;> split at h <;> cases h <;> exact Or.inl rfl
    · cases h; exact Or.inl rfl
    · cases h
    · cases h
  | opRemoveTag name tag =>
    simp only [applyOp, remove_tag_from_contact] at h
    rcases hcc : choose_contact db.contacts name inputs with cid2 | _ | _ | _ <;>
      rw [hcc] at h
    · rcases hf : db.tags.find? (fun t => t.name = tag) with _ | t0 <;>
        rw [hf] at h <;> cases h <;> exact Or.inl rfl
    · cases h; exact Or.inl rfl
    · cases h
    · cases h
  | opViewContact name =>
    simp only [applyOp, view_contact] at h
    rcases hcc : choose_contact db.contacts name inputs with cid2 | _ | _ | _ <;>
      rw [hcc] at h <;> cases h <;> exact Or.inl rfl
  | opListContacts =>
    simp only [applyOp] at h
    cases h; exact Or.inl rfl

/-- C2: once the name resolves to contact cid, each of add_note,
log_interaction and add_reminder (with a strptime-valid date) completes and
stamps that contact's last_contacted_at to the current instant, overwriting
any prior value; under the clock hypothesis (no stored timestamp is in the
future) the new value is at least the previous one, and every modelled
operation is monotone on every contact's last_contacted_at — the
once-set-non-decreasing invariant. -/
theorem c2_activity_tracker_updates (db : DB) (full_name : String)
    (inputs : List String) (message date_str : String) (now : Int) (cid : Nat)
    (hres : choose_contact db.contacts full_name inputs = .chosen cid)
    (hdate : (strptime_ymd date_str).isSome)
    (hclock : ∀ c ∈ db.contacts, sqlTsLe c.last_contacted_at (some now) = true) :
    (∃ db2, add_note db full_name inputs message now = .done db2 ∧
      lastContactedOf db2 cid = some (some now) ∧
      lcGrows (lastContactedOf db cid) (lastContactedOf db2 cid)) ∧
    (∃ db2, log_interaction db full_name inputs message now = .done db2 ∧
      lastContactedOf db2 cid = some (some now) ∧
      lcGrows (lastContactedOf db cid) (lastContactedOf db2 cid)) ∧
    (∃ db2, add_reminder db full_name inputs message date_str now = .done db2 ∧
      lastContactedOf db2 cid = some (some now) ∧
      lcGrows (lastContactedOf db cid) (lastContactedOf db2 cid)) ∧
    (∀ (op : Op) (db2 : DB), applyOp db op inputs now = .done db2 →
      ∀ cid2, lcGrows (lastContactedOf db cid2) (lastContactedOf db2 cid2)) := by
  have hex := choose_chosen_mem db.contacts full_name inputs cid hres
  refine ⟨⟨update_last_contacted
      { db with notes := db.notes ++ [⟨cid, message, now⟩] } cid now,
      ?_, ?_, ?_⟩,
    ⟨update_last_contacted
      { db with
        notes := db.notes ++ [⟨cid, "Logged interaction: " ++ message, now⟩] }
      cid now, ?_, ?_, ?_⟩,
    ⟨update_last_contacted
      { db with reminders := db.reminders ++ [⟨cid, message, date_str, now⟩] }
      cid now, ?_, ?_, ?_⟩, ?_⟩
  · simp [add_note, hres]
  · exact lastContactedOf_update_self _ cid now hex
  · exact lcGrows_map_update db _ cid now cid rfl hclock
  · simp [log_interaction, hres]
  · exact lastContactedOf_update_self _ cid now hex
  · exact lcGrows_map_update db _ cid now cid rfl hclock
  · rcases hd : strptime_ymd date_str with _ | d
    · rw [hd] at hdate; cases hdate
    · simp [add_reminder, hres, hd]
  · exact lastContactedOf_update_self _ cid now hex
  · exact lcGrows_map_update db _ cid now cid rfl hclock
  · intro op db2 h cid2
    rcases applyOp_contacts_cases db op inputs now db2 h with heq | ⟨cidu, heq⟩
    · have hsame : lastContactedOf db2 cid2 = lastContactedOf db cid2 := by
        unfold lastContactedOf; rw [heq]
      rw [hsame]; exact lcGrows_refl _
    · exact lcGrows_map_update db db2 cidu now cid2 heq hclock

theorem c2_witness :
    ∃ db2, add_note (DB.mk [⟨1, "Amy", none, some 5⟩] [] [] [] [] 1) "Amy" []
        "hello" 10 = .done db2 ∧
      lastContactedOf db2 1 = some (some 10) ∧
      lcGrows
        (lastContactedOf (DB.mk [⟨1, "Amy", none, some 5⟩] [] [] [] [] 1) 1)
        (lastContactedOf db2 1) :=
  (c2_activity_tracker_updates (DB.mk [⟨1, "Amy", none, some 5⟩] [] [] [] [] 1)
    "Amy" [] "hello" "2024-01-02" 10 1 (by decide) (by decide) (by decide)).1
